import Mathlib

/-!
# INA2xx: device registry and value samplers

A shallow embedding of `src/ina2xx.h` / `src/ina2xx.cpp`.

* The I2C driver `INA_Class`, the scheduler (`app.onRepeat`), the debug output and the JSON
  objects are collaborators of the program; they are represented by explicit state
  (`World`) and by the record of driver operations `INA_Class σ`.
* C++ `double` and `float` values are represented by the rational number they denote
  (`FloatVal`), with IEEE 754 round-to-nearest-even made explicit.
-/

namespace INA2xxSpec

/-! ## Floating point values -/

/-- A value of a C++ floating-point type reachable in this program: a finite number,
given by the rational it denotes, or an infinity. -/
inductive FloatVal where
  | finite (q : ℚ)
  | inf (negative : Bool)
deriving DecidableEq

/-- An IEEE 754 binary format: `prec` significand bits (hidden bit included), exponent of
the smallest normal number `emin`, exponent of the largest finite number `emax`. -/
structure FloatFormat where
  prec : Nat
  emin : Int
  emax : Int

/-- C++ `float` on the target: IEEE 754 binary32. -/
def binary32 : FloatFormat := ⟨24, -126, 127⟩

/-- C++ `double` on the target: IEEE 754 binary64. -/
def binary64 : FloatFormat := ⟨53, -1022, 1023⟩

/-- Nearest integer of a rational, ties to the even integer. -/
def roundHalfEven (q : ℚ) : Int :=
  if q - ⌊q⌋ < 1 / 2 then ⌊q⌋
  else if 1 / 2 < q - ⌊q⌋ then ⌊q⌋ + 1
  else if ⌊q⌋ % 2 = 0 then ⌊q⌋ else ⌊q⌋ + 1

/-- Unit in the last place of the format at `q`: `2 ^ (e - (prec - 1))` where `e` is the
exponent of the leading bit of `q`, not below `emin` (subnormal range). -/
def FloatFormat.ulp (F : FloatFormat) (q : ℚ) : ℚ :=
  (2 : ℚ) ^ (max (Int.log 2 |q|) F.emin - ((F.prec : Int) - 1))

/-- IEEE 754 rounding of a rational to the format, round to nearest, ties to even;
a result beyond the largest finite number is an infinity. -/
def FloatFormat.round (F : FloatFormat) (q : ℚ) : FloatVal :=
  if (2 : ℚ) ^ (F.emax + 1) ≤ |(roundHalfEven (q / F.ulp q) : ℚ) * F.ulp q| then
    FloatVal.inf (decide (q < 0))
  else
    FloatVal.finite ((roundHalfEven (q / F.ulp q) : ℚ) * F.ulp q)

/-- Conversion of an integer operand to `double` (usual arithmetic conversions). -/
def intToDouble (n : Int) : FloatVal := binary64.round (n : ℚ)

/-- Division `x / c` in `double` by a positive constant `c` that is itself a `double`
(`1000.0`, `1000000.0`). -/
def divDouble (x : FloatVal) (c : ℚ) : FloatVal :=
  match x with
  | FloatVal.finite q => binary64.round (q / c)
  | FloatVal.inf s => FloatVal.inf s

/-- Narrowing of a `double` to `float` (the assignment `reading = ...`). -/
def doubleToFloat (x : FloatVal) : FloatVal :=
  match x with
  | FloatVal.finite q => binary32.round q
  | FloatVal.inf s => FloatVal.inf s

/-- A rational is a number of the format: `m * 2 ^ e` with `|m| < 2 ^ prec` and `e` within
the exponent range of the format. -/
def FloatFormat.Representable (F : FloatFormat) (q : ℚ) : Prop :=
  ∃ m e : Int, |m| < 2 ^ F.prec ∧ F.emin - ((F.prec : Int) - 1) ≤ e ∧
    e ≤ F.emax - ((F.prec : Int) - 1) ∧ q = (m : ℚ) * (2 : ℚ) ^ e

/-! ## Debug output -/

/-- Levels of the debug statements used by the program (`debugE`, `debugI`). Which levels
are active is a parameter `dbg` of the program. -/
inductive DebugLevel where
  | error
  | info
deriving DecidableEq

/-- One line written by `debugE` / `debugI`: the format string and its arguments. -/
structure LogLine where
  level : DebugLevel
  fmt : String
  nums : List Nat
  strs : List String
deriving DecidableEq

/-! ## The driver `INA_Class` -/

/-- Modelled from the spec: the driver `INA_Class` (library `INA.h`, not part of the
sources; section 6, BusDeviceDriver), given by its operations as functions on the state
`σ` of the driver object. Integer results are the values the C++ member functions
return; `begin` returns a `uint8_t`, which the caller reads modulo 256. -/
structure INA_Class (σ : Type) where
  /-- State of a default-constructed driver, `new INA_Class`. -/
  init : σ
  begin : Nat → Nat → σ → Nat × σ
  getDeviceAddress : Nat → σ → Nat × σ
  getDeviceName : Nat → σ → String × σ
  setAveraging : Nat → Option Nat → σ → σ
  getBusMilliVolts : Nat → σ → Int × σ
  getShuntMicroVolts : Nat → σ → Int × σ
  getBusMicroWatts : Nat → σ → Int × σ
  getBusMicroAmps : Nat → σ → Int × σ

/-- A call made on the driver object, recorded in program order. For `setAveraging` the
second component is the optional `deviceNumber` argument: `none` when it is left out, which
the driver applies to all devices (the same argument as in `INA_Class.setAveraging`). -/
inductive DriverCall where
  | begin (max_amps shunt_micro_ohms : Nat)
  | getDeviceAddress (i : Nat)
  | getDeviceName (i : Nat)
  | setAveraging (averages : Nat) (deviceNumber : Option Nat)
  | getBusMilliVolts (i : Nat)
  | getShuntMicroVolts (i : Nat)
  | getBusMicroWatts (i : Nat)
  | getBusMicroAmps (i : Nat)
deriving DecidableEq

/-! ## The registry `INA2xx` -/

/-- The class `INA2xx`: the driver object behind `ina_` and the flag `sensor_detected_`. -/
structure INA2xx (σ : Type) where
  ina_ : σ
  sensor_detected_ : Bool

/-- Everything the constructor `INA2xx::INA2xx` does: the object it builds, the calls it
makes on the driver, the debug lines it writes and the time it spends in `delay`. -/
structure Boot (σ : Type) where
  ina2xx : INA2xx σ
  calls : List DriverCall
  log : List LogLine
  delayed_ms : Nat

/-- Effect of a `debugE` / `debugI` line: written when the level is active. -/
def Boot.debug {σ : Type} (dbg : DebugLevel → Bool) (l : LogLine) (b : Boot σ) : Boot σ :=
  if dbg l.level then { b with log := b.log ++ [l] } else b

/-- The effect of one recorded call on the driver object: the state of the driver after
the call. -/
def DriverCall.run {σ : Type} (d : INA_Class σ) (s : σ) (c : DriverCall) : σ :=
  match c with
  | DriverCall.begin max_amps shunt_micro_ohms => (d.begin max_amps shunt_micro_ohms s).2
  | DriverCall.getDeviceAddress i => (d.getDeviceAddress i s).2
  | DriverCall.getDeviceName i => (d.getDeviceName i s).2
  | DriverCall.setAveraging averages deviceNumber => d.setAveraging averages deviceNumber s
  | DriverCall.getBusMilliVolts i => (d.getBusMilliVolts i s).2
  | DriverCall.getShuntMicroVolts i => (d.getShuntMicroVolts i s).2
  | DriverCall.getBusMicroWatts i => (d.getBusMicroWatts i s).2
  | DriverCall.getBusMicroAmps i => (d.getBusMicroAmps i s).2

/-- Body of the loop at lines 24-26 for one `i`: the `debugI` line whose arguments are
`i`, `getDeviceAddress(i)` and `getDeviceName(i)`. The arguments are evaluated only when
the level is active (the debug statement expands to a guarded call). C++ leaves the order
of the two driver calls to the compiler: `nameFirst = true` is the order right to left
(`getDeviceName(i)` before `getDeviceAddress(i)`), `nameFirst = false` the order left to
right. -/
def INA2xx.logDevice {σ : Type} (d : INA_Class σ) (dbg : DebugLevel → Bool)
    (nameFirst : Bool) (b : Boot σ) (i : Nat) : Boot σ :=
  if dbg DebugLevel.info then
    if nameFirst then
      { ina2xx := { b.ina2xx with
          ina_ := (d.getDeviceAddress i (d.getDeviceName i b.ina2xx.ina_).2).2 }
        calls := b.calls ++ [DriverCall.getDeviceName i, DriverCall.getDeviceAddress i]
        log := b.log ++ [⟨DebugLevel.info, "Device #, addr, and name: %2d 0x%2x %s",
          [i, (d.getDeviceAddress i (d.getDeviceName i b.ina2xx.ina_).2).1],
          [(d.getDeviceName i b.ina2xx.ina_).1]⟩]
        delayed_ms := b.delayed_ms }
    else
      { ina2xx := { b.ina2xx with
          ina_ := (d.getDeviceName i (d.getDeviceAddress i b.ina2xx.ina_).2).2 }
        calls := b.calls ++ [DriverCall.getDeviceAddress i, DriverCall.getDeviceName i]
        log := b.log ++ [⟨DebugLevel.info, "Device #, addr, and name: %2d 0x%2x %s",
          [i, (d.getDeviceAddress i b.ina2xx.ina_).1],
          [(d.getDeviceName i (d.getDeviceAddress i b.ina2xx.ina_).2).1]⟩]
        delayed_ms := b.delayed_ms }
  else b

/-- The value stored in `uint8_t devicesFound` at line 11. -/
def INA2xx.devicesFound {σ : Type} (d : INA_Class σ) (max_amps shunt_micro_ohms : Nat)
    (ina_class : Option σ) : Nat :=
  (d.begin max_amps shunt_micro_ohms (ina_class.getD d.init)).1 % 256

/-- The constructor `INA2xx::INA2xx(max_amps, shunt_micro_ohms, ina_class)`;
`ina_class = none` is the `NULL` default. The parameters `dbg` (active debug levels) and
`nameFirst` (order in which the compiler evaluates the arguments of the `debugI` line of
the loop) are fixed by the build of the program. -/
def INA2xx.new {σ : Type} (d : INA_Class σ) (dbg : DebugLevel → Bool) (nameFirst : Bool)
    (max_amps shunt_micro_ohms : Nat) (ina_class : Option σ) : Boot σ :=
  let devicesFound := INA2xx.devicesFound d max_amps shunt_micro_ohms ina_class
  let b0 : Boot σ :=
    { ina2xx :=
        { ina_ := (d.begin max_amps shunt_micro_ohms (ina_class.getD d.init)).2
          sensor_detected_ := true }
      calls := [DriverCall.begin max_amps shunt_micro_ohms]
      log := []
      delayed_ms := 0 }
  let b1 : Boot σ :=
    if devicesFound = 0 then
      let b := b0.debug dbg
        ⟨DebugLevel.error, "No INA2xx sensors found: retry in 10 seconds.", [], []⟩
      { b with delayed_ms := b.delayed_ms + 10000 }
    else b0
  if devicesFound = 0 then
    Boot.debug dbg ⟨DebugLevel.error, "No INA2xx sensors found: check wiring.", [], []⟩
      { b1 with ina2xx := { b1.ina2xx with sensor_detected_ := false } }
  else
    let b2 := b1.debug dbg
      ⟨DebugLevel.info, "Found %d INA2xx devices on the I2C bus.", [devicesFound], []⟩
    let b3 := (List.range devicesFound).foldl (INA2xx.logDevice d dbg nameFirst) b2
    { b3 with
      ina2xx := { b3.ina2xx with ina_ := d.setAveraging 60 none b3.ina2xx.ina_ }
      calls := b3.calls ++ [DriverCall.setAveraging 60 none] }

/-! ## The sampler `INA2xxValue` -/

/-- The enumeration `INA2xxValue::INA2xxValType`. -/
inductive INA2xxValType where
  | bus_volts
  | shunt_volts
  | watts
  | amps
deriving DecidableEq

/-- The data members of an `INA2xxValue` object; `output` is the `float` member inherited
from `NumericSensor`. The pointer `ina2xx_` is the registry of the `World`. -/
structure INA2xxValue where
  deviceNum_ : Nat
  val_type_ : INA2xxValType
  read_delay_ : Nat
  output : FloatVal
deriving DecidableEq

/-- Modelled from the spec: a repeating timer of the Scheduler (section 6,
`on_repeat(interval_ms, callback)` "registers a callback invoked every `interval_ms`"),
as registered by `app.onRepeat(read_delay_, [this]() ...)`: its period and the sampler
object captured by the callback. The scheduler itself is not part of the sources. -/
structure RepeatReaction where
  interval : Nat
  this : Nat
deriving DecidableEq

/-- State of the running program: the registry with its driver, the sampler objects (by
object identity), the timers held by the scheduler `app`, the values passed to `notify()`
(sampler and value), the calls made on the driver and the debug lines written. -/
structure World (σ : Type) where
  ina2xx : INA2xx σ
  samplers : Nat → INA2xxValue
  app : List RepeatReaction
  sink : List (Nat × FloatVal)
  calls : List DriverCall
  log : List LogLine

/-- The value of `raw / divisor` once assigned to `float reading`: the raw integer is
converted to `double`, divided by the `double` constant, and the quotient is narrowed to
`float`. -/
def scaled (raw : Int) (divisor : ℚ) : FloatVal :=
  doubleToFloat (divDouble (intToDouble raw) divisor)

/-- The `switch (val_type_)` of the callback (lines 47-64): the value of `reading`, the
driver state after the getter, and the call made on the driver. -/
def readValue {σ : Type} (d : INA_Class σ) (v : INA2xxValue) (ina : σ) :
    FloatVal × σ × DriverCall :=
  match v.val_type_ with
  | INA2xxValType.bus_volts =>
      (scaled (d.getBusMilliVolts v.deviceNum_ ina).1 1000,
        (d.getBusMilliVolts v.deviceNum_ ina).2, DriverCall.getBusMilliVolts v.deviceNum_)
  | INA2xxValType.shunt_volts =>
      (scaled (d.getShuntMicroVolts v.deviceNum_ ina).1 1000000,
        (d.getShuntMicroVolts v.deviceNum_ ina).2, DriverCall.getShuntMicroVolts v.deviceNum_)
  | INA2xxValType.watts =>
      (scaled (d.getBusMicroWatts v.deviceNum_ ina).1 1000000,
        (d.getBusMicroWatts v.deviceNum_ ina).2, DriverCall.getBusMicroWatts v.deviceNum_)
  | INA2xxValType.amps =>
      (scaled (d.getBusMicroAmps v.deviceNum_ ina).1 1000000,
        (d.getBusMicroAmps v.deviceNum_ ina).2, DriverCall.getBusMicroAmps v.deviceNum_)

/-- One run of the callback registered by `enable()` (lines 45-67) for the sampler `this`:
read and scale, `output = reading`, `notify()`. -/
def tick {σ : Type} (d : INA_Class σ) (this : Nat) (w : World σ) : World σ :=
  let r := readValue d (w.samplers this) w.ina2xx.ina_
  { w with
    ina2xx := { w.ina2xx with ina_ := r.2.1 }
    samplers := Function.update w.samplers this { w.samplers this with output := r.1 }
    sink := w.sink ++ [(this, r.1)]
    calls := w.calls ++ [r.2.2] }

/-- The member function `INA2xxValue::enable()`, called on the sampler `this`. -/
def enable {σ : Type} (dbg : DebugLevel → Bool) (this : Nat) (w : World σ) : World σ :=
  if !w.ina2xx.sensor_detected_ then
    if dbg DebugLevel.error then
      { w with log := w.log ++
          [⟨DebugLevel.error, "INA2xxValue not enabled: no INA2xx sensors detected", [], []⟩] }
    else w
  else
    { w with app := w.app ++ [⟨(w.samplers this).read_delay_, this⟩] }

/-- Modelled from the spec: one round of the Scheduler in which every registered timer
fires once, in the order of registration (section 5: ticks are dispatched one after the
other from the scheduler's run loop). -/
def fireAll {σ : Type} (d : INA_Class σ) (w : World σ) : World σ :=
  w.app.foldl (fun acc r => tick d r.this acc) w

/-- The scheduler run for `n` rounds. -/
def fireRounds {σ : Type} (d : INA_Class σ) (n : Nat) (w : World σ) : World σ :=
  (fireAll d)^[n] w

/-- Calls of `enable()` on the samplers `ids`, one after the other (a sampler may occur
more than once). -/
def enableEach {σ : Type} (dbg : DebugLevel → Bool) (ids : List Nat) (w : World σ) :
    World σ :=
  ids.foldl (fun acc this => enable dbg this acc) w

/-- Number of timers the scheduler holds whose callback captured the sampler `this`. -/
def timersOf {σ : Type} (w : World σ) (this : Nat) : Nat :=
  (w.app.filter (fun r => r.this = this)).length

/-- Number of values the sampler `this` has passed to `notify()`. -/
def notificationsOf {σ : Type} (w : World σ) (this : Nat) : Nat :=
  (w.sink.filter (fun n => n.1 = this)).length

/-! ## Configuration -/

/-- Modelled from the spec: a value held in a configuration object (section 6,
ConfigStore, `read_delay: number`); the JSON library is not part of the sources. -/
inductive JsonVariant where
  | null
  | bool (b : Bool)
  | integer (i : Int)
  | real (q : ℚ)
  | string (s : String)
deriving DecidableEq

/-- Modelled from the spec: a configuration object (`JsonObject` of the JSON library,
section 6), given by its members in order. -/
structure JsonObject where
  members : List (String × JsonVariant)
deriving DecidableEq

/-- Member test `config.containsKey(key)`. -/
def JsonObject.containsKey (o : JsonObject) (key : String) : Bool :=
  o.members.any (fun kv => kv.1 == key)

/-- Read access `config[key]`: the value of the first member named `key`, null when
absent. -/
def JsonObject.get (o : JsonObject) (key : String) : JsonVariant :=
  match o.members.find? (fun kv => kv.1 == key) with
  | some kv => kv.2
  | none => JsonVariant.null

/-- Assignment `root[key] = value`: replaces the value of the member named `key`, or adds
the member. -/
def JsonObject.set (o : JsonObject) (key : String) (value : JsonVariant) : JsonObject :=
  if o.containsKey key then
    ⟨o.members.map (fun kv => if kv.1 == key then (key, value) else kv)⟩
  else ⟨o.members ++ [(key, value)]⟩

/-- Modelled from the spec: conversion of a JSON value to `uint` (32 bits), as in
`read_delay_ = config[...]`. An integer within the range of `uint` converts to itself; for
any other value the result is the JSON library's, given by the parameter `other`. -/
def JsonVariant.asUInt (other : JsonVariant → Nat) (v : JsonVariant) : Nat :=
  match v with
  | JsonVariant.integer i =>
      if 0 ≤ i ∧ i < 2 ^ 32 then i.toNat else other (JsonVariant.integer i) % 2 ^ 32
  | _ => other v % 2 ^ 32

/-- The member function `INA2xxValue::get_configuration(root)`: the object `root` after
the call. -/
def INA2xxValue.get_configuration (v : INA2xxValue) (root : JsonObject) : JsonObject :=
  root.set "read_delay" (JsonVariant.integer v.read_delay_)

/-- The member function `INA2xxValue::set_configuration(config)`: the result and the
sampler after the call. -/
def INA2xxValue.set_configuration (other : JsonVariant → Nat) (v : INA2xxValue)
    (config : JsonObject) : Bool × INA2xxValue :=
  if ["read_delay"].any (fun str => !config.containsKey str) then (false, v)
  else (true, { v with read_delay_ := (config.get "read_delay").asUInt other })

/-- The call `set_configuration(config)` on the sampler `this` of a running program. -/
def World.set_configuration {σ : Type} (other : JsonVariant → Nat) (this : Nat)
    (config : JsonObject) (w : World σ) : Bool × World σ :=
  ((INA2xxValue.set_configuration other (w.samplers this) config).1,
    { w with
      samplers := Function.update w.samplers this
                    (INA2xxValue.set_configuration other (w.samplers this) config).2 })

/-- The interval `get_configuration` reports for the sampler `this`: the member
`read_delay` of an object filled by the call. -/
def World.reportedInterval {σ : Type} (w : World σ) (this : Nat) (root : JsonObject) :
    JsonVariant :=
  ((w.samplers this).get_configuration root).get "read_delay"

/-! ## Reading of the claims -/

/-- A call that only asks the driver for the identity of a device. -/
def DriverCall.isQuery : DriverCall → Bool
  | DriverCall.getDeviceAddress _ => true
  | DriverCall.getDeviceName _ => true
  | _ => false

/-- The raw reading the claim speaks of: the result of the driver getter that matches the
value type, for the device number of the sampler. -/
def rawOf {σ : Type} (d : INA_Class σ) (v : INA2xxValue) (ina : σ) : Int :=
  match v.val_type_ with
  | INA2xxValType.bus_volts => (d.getBusMilliVolts v.deviceNum_ ina).1
  | INA2xxValType.shunt_volts => (d.getShuntMicroVolts v.deviceNum_ ina).1
  | INA2xxValType.watts => (d.getBusMicroWatts v.deviceNum_ ina).1
  | INA2xxValType.amps => (d.getBusMicroAmps v.deviceNum_ ina).1

/-- The getter call that matches a value type. -/
def getterOf (t : INA2xxValType) (deviceNum : Nat) : DriverCall :=
  match t with
  | INA2xxValType.bus_volts => DriverCall.getBusMilliVolts deviceNum
  | INA2xxValType.shunt_volts => DriverCall.getShuntMicroVolts deviceNum
  | INA2xxValType.watts => DriverCall.getBusMicroWatts deviceNum
  | INA2xxValType.amps => DriverCall.getBusMicroAmps deviceNum

/-- The divisor the claim gives for a value type: 1000 for millivolts, 1,000,000 for the
micro-units. -/
def divisorOf (t : INA2xxValType) : ℚ :=
  match t with
  | INA2xxValType.bus_volts => 1000
  | _ => 1000000

/-! ## Logical slots -/

/-- Modelled from the spec: a discovered physical device (section 3, PhysicalDevice), with
its bus address, name and channel count. Discovery is done inside `INA_Class::begin`,
which is not part of the sources. -/
structure PhysicalDevice where
  address : Nat
  name : String
  channels : Nat
deriving DecidableEq

/-- Modelled from the spec: the logical slots (section 3, LogicalSlot), "assigned by
walking discovered physical devices in ascending bus-address order and, for each, emitting
one slot per channel it exposes". The argument is the list of discovered devices in that
order; the slot number (`deviceNumber`) is the position in the result, which gives the
device and the channel of the slot. The walk is done by the driver, not by the sources. -/
def assignSlots : List PhysicalDevice → List (PhysicalDevice × Nat)
  | [] => []
  | dev :: rest => (List.range dev.channels).map (fun ch => (dev, ch)) ++ assignSlots rest

/-- First slot of the run of the `i`-th device: the channel counts before it, summed. -/
def runStart (devs : List PhysicalDevice) (i : Nat) : Nat :=
  ((devs.take i).map (fun dev => dev.channels)).sum

/-! ## Concrete inputs -/

/-- A driver on which `begin` finds `n` devices and every getter answers `raw`; the state
counts the calls made. -/
def constDriver (n : Nat) (raw : Int) : INA_Class Nat where
  init := 0
  begin := fun _ _ s => (n, s + 1)
  getDeviceAddress := fun i s => (64 + i, s + 1)
  getDeviceName := fun _ s => ("INA219", s + 1)
  setAveraging := fun _ _ s => s + 1
  getBusMilliVolts := fun _ s => (raw, s + 1)
  getShuntMicroVolts := fun _ s => (raw, s + 1)
  getBusMicroWatts := fun _ s => (raw, s + 1)
  getBusMicroAmps := fun _ s => (raw, s + 1)

/-- A driver on which `begin` finds `n` devices and whose state is the list of the calls it
has received, in order. -/
def recordingDriver (n : Nat) : INA_Class (List DriverCall) where
  init := []
  begin := fun a r s => (n, s ++ [DriverCall.begin a r])
  getDeviceAddress := fun i s => (64 + i, s ++ [DriverCall.getDeviceAddress i])
  getDeviceName := fun i s => ("INA219", s ++ [DriverCall.getDeviceName i])
  setAveraging := fun a dev s => s ++ [DriverCall.setAveraging a dev]
  getBusMilliVolts := fun i s => (0, s ++ [DriverCall.getBusMilliVolts i])
  getShuntMicroVolts := fun i s => (0, s ++ [DriverCall.getShuntMicroVolts i])
  getBusMicroWatts := fun i s => (0, s ++ [DriverCall.getBusMicroWatts i])
  getBusMicroAmps := fun i s => (0, s ++ [DriverCall.getBusMicroAmps i])

/-- The program right after the registry is constructed: no timer, nothing notified. -/
def World.start {σ : Type} (b : Boot σ) (samplers : Nat → INA2xxValue) : World σ :=
  { ina2xx := b.ina2xx, samplers := samplers, app := [], sink := [], calls := b.calls,
    log := b.log }

/-- Samplers as in the example program: value type `t` on device 0, `read_delay` 1000. -/
def exampleSamplers (t : INA2xxValType) : Nat → INA2xxValue :=
  fun _ => ⟨0, t, 1000, FloatVal.finite 0⟩

/-- The example program on a bus with `n` devices answering `raw`, all debug levels on,
arguments evaluated right to left. -/
def exampleWorld (n : Nat) (raw : Int) (t : INA2xxValType) : World Nat :=
  World.start (INA2xx.new (constDriver n raw) (fun _ => true) true 1 100000 none)
    (exampleSamplers t)

/-- The setup of the example program's comment: an INA219 at 0x40, an INA3221 at 0x41. -/
def exampleBus : List PhysicalDevice :=
  [⟨0x40, "INA219", 1⟩, ⟨0x41, "INA3221", 3⟩]

/-! # Theorems -/

/-! ## Configuration: lemmas -/

theorem find_replaced (key : String) (value : JsonVariant) :
    ∀ ms : List (String × JsonVariant), ms.any (fun kv => kv.1 == key) = true →
      (ms.map (fun kv => if kv.1 == key then (key, value) else kv)).find?
        (fun kv => kv.1 == key) = some (key, value)
  | [], h => by simp at h
  | kv :: rest, h => by
    cases hk : (kv.1 == key) with
    | true => simp [List.find?, hk]
    | false =>
      have hr : rest.any (fun kv => kv.1 == key) = true := by
        rw [List.any_cons, hk, Bool.false_or] at h
        exact h
      rw [List.map_cons, hk]
      simp only [Bool.false_eq_true, if_false]
      rw [List.find?_cons, hk]
      exact find_replaced key value rest hr

theorem find_appended (key : String) (value : JsonVariant) :
    ∀ ms : List (String × JsonVariant), ms.any (fun kv => kv.1 == key) = false →
      (ms ++ [(key, value)]).find? (fun kv => kv.1 == key) = some (key, value)
  | [], _ => by simp [List.find?]
  | kv :: rest, h => by
    rw [List.any_cons, Bool.or_eq_false_iff] at h
    rw [List.cons_append, List.find?_cons, h.1]
    exact find_appended key value rest h.2

theorem JsonObject.get_set (o : JsonObject) (key : String) (value : JsonVariant) :
    (o.set key value).get key = value := by
  unfold JsonObject.set
  cases h : o.containsKey key with
  | true =>
    simp only [if_true]
    unfold JsonObject.get
    rw [find_replaced key value o.members h]
  | false =>
    simp only [Bool.false_eq_true, if_false]
    unfold JsonObject.get
    rw [find_appended key value o.members h]

theorem JsonObject.containsKey_of_get_ne_null (o : JsonObject) (key : String)
    (h : o.get key ≠ JsonVariant.null) : o.containsKey key = true := by
  unfold JsonObject.get at h
  unfold JsonObject.containsKey
  cases hf : o.members.find? (fun kv => kv.1 == key) with
  | none => simp [hf] at h
  | some kv =>
    have hm := List.mem_of_find?_eq_some hf
    have hp := List.find?_some hf
    exact List.any_eq_true.mpr ⟨kv, hm, hp⟩

theorem set_configuration_rejected (other : JsonVariant → Nat) (v : INA2xxValue)
    (config : JsonObject) (h : config.containsKey "read_delay" = false) :
    INA2xxValue.set_configuration other v config = (false, v) := by
  unfold INA2xxValue.set_configuration
  simp [h]

theorem set_configuration_accepted (other : JsonVariant → Nat) (v : INA2xxValue)
    (config : JsonObject) (h : config.containsKey "read_delay" = true) :
    INA2xxValue.set_configuration other v config =
      (true, { v with read_delay_ := (config.get "read_delay").asUInt other }) := by
  unfold INA2xxValue.set_configuration
  simp [h]

/-! ## Scheduling: lemmas -/

theorem enable_undetected {σ : Type} (dbg : DebugLevel → Bool) (this : Nat) (w : World σ)
    (h : w.ina2xx.sensor_detected_ = false) :
    (enable dbg this w).app = w.app ∧ (enable dbg this w).samplers = w.samplers ∧
      (enable dbg this w).sink = w.sink ∧ (enable dbg this w).calls = w.calls ∧
      (enable dbg this w).ina2xx = w.ina2xx := by
  unfold enable
  cases hd : dbg DebugLevel.error <;> simp [h]

theorem enable_detected {σ : Type} (dbg : DebugLevel → Bool) (this : Nat) (w : World σ)
    (h : w.ina2xx.sensor_detected_ = true) :
    enable dbg this w = { w with app := w.app ++ [⟨(w.samplers this).read_delay_, this⟩] } := by
  unfold enable
  simp [h]

theorem enableEach_undetected {σ : Type} (dbg : DebugLevel → Bool) :
    ∀ (ids : List Nat) (w : World σ), w.ina2xx.sensor_detected_ = false →
      (enableEach dbg ids w).app = w.app ∧ (enableEach dbg ids w).samplers = w.samplers ∧
        (enableEach dbg ids w).sink = w.sink ∧ (enableEach dbg ids w).calls = w.calls ∧
        (enableEach dbg ids w).ina2xx = w.ina2xx
  | [], w, _ => ⟨rfl, rfl, rfl, rfl, rfl⟩
  | this :: ids, w, h => by
    obtain ⟨h1, h2, h3, h4, h5⟩ := enable_undetected dbg this w h
    have h' : (enable dbg this w).ina2xx.sensor_detected_ = false := by rw [h5]; exact h
    obtain ⟨k1, k2, k3, k4, k5⟩ := enableEach_undetected dbg ids (enable dbg this w) h'
    have e : enableEach dbg (this :: ids) w = enableEach dbg ids (enable dbg this w) := rfl
    rw [e]
    exact ⟨k1.trans h1, k2.trans h2, k3.trans h3, k4.trans h4, k5.trans h5⟩

theorem fireAll_of_no_timer {σ : Type} (d : INA_Class σ) (w : World σ) (h : w.app = []) :
    fireAll d w = w := by
  unfold fireAll
  rw [h]
  rfl

theorem fireRounds_of_no_timer {σ : Type} (d : INA_Class σ) (w : World σ) (h : w.app = []) :
    ∀ n : Nat, fireRounds d n w = w
  | 0 => rfl
  | n + 1 => by
    unfold fireRounds
    rw [Function.iterate_succ_apply, fireAll_of_no_timer d w h]
    exact fireRounds_of_no_timer d w h n

theorem debug_ina2xx {σ : Type} (dbg : DebugLevel → Bool) (l : LogLine) (b : Boot σ) :
    (b.debug dbg l).ina2xx = b.ina2xx ∧ (b.debug dbg l).calls = b.calls := by
  unfold Boot.debug
  cases dbg l.level <;> simp

theorem logDevice_fold {σ : Type} (d : INA_Class σ) (dbg : DebugLevel → Bool)
    (nameFirst : Bool) :
    ∀ (l : List Nat) (b : Boot σ),
      (l.foldl (INA2xx.logDevice d dbg nameFirst) b).ina2xx.sensor_detected_ =
          b.ina2xx.sensor_detected_ ∧
        ∃ mid : List DriverCall,
          (l.foldl (INA2xx.logDevice d dbg nameFirst) b).calls = b.calls ++ mid ∧
            (∀ c ∈ mid, c.isQuery = true) ∧
            (l.foldl (INA2xx.logDevice d dbg nameFirst) b).ina2xx.ina_ =
              mid.foldl (DriverCall.run d) b.ina2xx.ina_
  | [], b => ⟨rfl, [], by simp, by simp, rfl⟩
  | i :: l, b => by
    obtain ⟨h1, mid, h2, h3, h4⟩ :=
      logDevice_fold d dbg nameFirst l (INA2xx.logDevice d dbg nameFirst b i)
    rw [List.foldl_cons]
    cases hd : dbg DebugLevel.info with
    | false =>
      have e : INA2xx.logDevice d dbg nameFirst b i = b := by
        unfold INA2xx.logDevice
        simp [hd]
      rw [e] at h1 h2 h4 ⊢
      exact ⟨h1, mid, h2, h3, h4⟩
    | true =>
      cases nameFirst with
      | true =>
        have e1 : (INA2xx.logDevice d dbg true b i).ina2xx.sensor_detected_ =
            b.ina2xx.sensor_detected_ := by unfold INA2xx.logDevice; simp [hd]
        have e2 : (INA2xx.logDevice d dbg true b i).calls =
            b.calls ++ [DriverCall.getDeviceName i, DriverCall.getDeviceAddress i] := by
          unfold INA2xx.logDevice; simp [hd]
        have e3 : (INA2xx.logDevice d dbg true b i).ina2xx.ina_ =
            [DriverCall.getDeviceName i, DriverCall.getDeviceAddress i].foldl
              (DriverCall.run d) b.ina2xx.ina_ := by
          unfold INA2xx.logDevice; simp [hd, DriverCall.run]
        refine ⟨h1.trans e1,
          [DriverCall.getDeviceName i, DriverCall.getDeviceAddress i] ++ mid, ?_, ?_, ?_⟩
        · rw [h2, e2, List.append_assoc]
        · intro c hc
          rcases List.mem_append.mp hc with hc | hc
          · simp only [List.mem_cons, List.mem_singleton, List.not_mem_nil, or_false] at hc
            rcases hc with rfl | rfl <;> rfl
          · exact h3 c hc
        · rw [h4, e3, List.foldl_append]
      | false =>
        have e1 : (INA2xx.logDevice d dbg false b i).ina2xx.sensor_detected_ =
            b.ina2xx.sensor_detected_ := by unfold INA2xx.logDevice; simp [hd]
        have e2 : (INA2xx.logDevice d dbg false b i).calls =
            b.calls ++ [DriverCall.getDeviceAddress i, DriverCall.getDeviceName i] := by
          unfold INA2xx.logDevice; simp [hd]
        have e3 : (INA2xx.logDevice d dbg false b i).ina2xx.ina_ =
            [DriverCall.getDeviceAddress i, DriverCall.getDeviceName i].foldl
              (DriverCall.run d) b.ina2xx.ina_ := by
          unfold INA2xx.logDevice; simp [hd, DriverCall.run]
        refine ⟨h1.trans e1,
          [DriverCall.getDeviceAddress i, DriverCall.getDeviceName i] ++ mid, ?_, ?_, ?_⟩
        · rw [h2, e2, List.append_assoc]
        · intro c hc
          rcases List.mem_append.mp hc with hc | hc
          · simp only [List.mem_cons, List.mem_singleton, List.not_mem_nil, or_false] at hc
            rcases hc with rfl | rfl <;> rfl
          · exact h3 c hc
        · rw [h4, e3, List.foldl_append]

theorem new_sensor_detected {σ : Type} (d : INA_Class σ) (dbg : DebugLevel → Bool)
    (nameFirst : Bool) (max_amps shunt_micro_ohms : Nat) (ina_class : Option σ) :
    (INA2xx.new d dbg nameFirst max_amps shunt_micro_ohms ina_class).ina2xx.sensor_detected_ =
      !decide (INA2xx.devicesFound d max_amps shunt_micro_ohms ina_class = 0) := by
  unfold INA2xx.new
  by_cases h : INA2xx.devicesFound d max_amps shunt_micro_ohms ina_class = 0
  · simp only [h, if_true, decide_True, Bool.not_true]
    rw [(debug_ina2xx dbg _ _).1]
  · simp only [h, if_false, decide_False, Bool.not_false]
    rw [(logDevice_fold d dbg nameFirst _ _).1, (debug_ina2xx dbg _ _).1]

/-- The calls of the constructor and the state they leave the driver in. -/
theorem new_calls {σ : Type} (d : INA_Class σ) (dbg : DebugLevel → Bool)
    (nameFirst : Bool) (max_amps shunt_micro_ohms : Nat) (ina_class : Option σ) :
    (INA2xx.devicesFound d max_amps shunt_micro_ohms ina_class = 0 →
      (INA2xx.new d dbg nameFirst max_amps shunt_micro_ohms ina_class).calls =
        [DriverCall.begin max_amps shunt_micro_ohms] ∧
      (INA2xx.new d dbg nameFirst max_amps shunt_micro_ohms ina_class).ina2xx.ina_ =
        (d.begin max_amps shunt_micro_ohms (ina_class.getD d.init)).2) ∧
    (INA2xx.devicesFound d max_amps shunt_micro_ohms ina_class ≠ 0 →
      ∃ mid : List DriverCall,
        (INA2xx.new d dbg nameFirst max_amps shunt_micro_ohms ina_class).calls =
          DriverCall.begin max_amps shunt_micro_ohms ::
            (mid ++ [DriverCall.setAveraging 60 none]) ∧
        (∀ c ∈ mid, c.isQuery = true) ∧
        (INA2xx.new d dbg nameFirst max_amps shunt_micro_ohms ina_class).ina2xx.ina_ =
          d.setAveraging 60 none (mid.foldl (DriverCall.run d)
            (d.begin max_amps shunt_micro_ohms (ina_class.getD d.init)).2)) := by
  unfold INA2xx.new
  constructor
  · intro h
    simp only [h, if_true]
    rw [(debug_ina2xx dbg _ _).2, (debug_ina2xx dbg _ _).1]
    simp only
    rw [(debug_ina2xx dbg _ _).2, (debug_ina2xx dbg _ _).1]
    exact ⟨rfl, rfl⟩
  · intro h
    simp only [h, if_false]
    obtain ⟨mid, h2, h3, h4⟩ := (logDevice_fold d dbg nameFirst
      (List.range (INA2xx.devicesFound d max_amps shunt_micro_ohms ina_class))
      (Boot.debug dbg ⟨DebugLevel.info, "Found %d INA2xx devices on the I2C bus.",
        [INA2xx.devicesFound d max_amps shunt_micro_ohms ina_class], []⟩
        { ina2xx :=
            { ina_ := (d.begin max_amps shunt_micro_ohms (ina_class.getD d.init)).2
              sensor_detected_ := true }
          calls := [DriverCall.begin max_amps shunt_micro_ohms]
          log := []
          delayed_ms := 0 })).2
    refine ⟨mid, ?_, h3, ?_⟩
    · rw [h2, (debug_ina2xx dbg _ _).2]
      simp
    · rw [h4, (debug_ina2xx dbg _ _).1]

theorem enable_iterate_detected {σ : Type} (dbg : DebugLevel → Bool) (this : Nat) :
    ∀ (k : Nat) (w : World σ), w.ina2xx.sensor_detected_ = true →
      ((enable dbg this)^[k] w).app =
          w.app ++ List.replicate k ⟨(w.samplers this).read_delay_, this⟩ ∧
        ((enable dbg this)^[k] w).samplers = w.samplers ∧
        ((enable dbg this)^[k] w).sink = w.sink ∧
        ((enable dbg this)^[k] w).ina2xx = w.ina2xx
  | 0, w, _ => by simp
  | k + 1, w, h => by
    have e := enable_detected dbg this w h
    have h' : (enable dbg this w).ina2xx.sensor_detected_ = true := by rw [e]; exact h
    obtain ⟨k1, k2, k3, k4⟩ := enable_iterate_detected dbg this k (enable dbg this w) h'
    rw [Function.iterate_succ_apply]
    refine ⟨?_, ?_, ?_, ?_⟩
    · rw [k1, e]
      simp [List.replicate_succ]
    · rw [k2, e]
    · rw [k3, e]
    · rw [k4, e]

theorem notificationsOf_tick {σ : Type} (d : INA_Class σ) (i this : Nat) (w : World σ) :
    notificationsOf (tick d i w) this =
      notificationsOf w this + (if i = this then 1 else 0) := by
  unfold notificationsOf tick
  by_cases h : i = this <;> simp [List.filter_append, List.filter_cons, h]

theorem notificationsOf_fold {σ : Type} (d : INA_Class σ) (this : Nat) :
    ∀ (l : List RepeatReaction) (w : World σ),
      notificationsOf (l.foldl (fun acc r => tick d r.this acc) w) this =
        notificationsOf w this + (l.filter (fun r => r.this = this)).length
  | [], w => by simp
  | r :: l, w => by
    rw [List.foldl_cons, notificationsOf_fold d this l (tick d r.this w),
      notificationsOf_tick]
    by_cases h : r.this = this
    · simp [List.filter_cons, h]
      omega
    · simp [List.filter_cons, h]

theorem notificationsOf_fireAll {σ : Type} (d : INA_Class σ) (this : Nat) (w : World σ) :
    notificationsOf (fireAll d w) this = notificationsOf w this + timersOf w this :=
  notificationsOf_fold d this w.app w

theorem timersOf_enable_iterate {σ : Type} (dbg : DebugLevel → Bool) (this : Nat) (k : Nat)
    (w : World σ) (h : w.ina2xx.sensor_detected_ = true) :
    timersOf ((enable dbg this)^[k] w) this = timersOf w this + k := by
  unfold timersOf
  rw [(enable_iterate_detected dbg this k w h).1, List.filter_append, List.length_append]
  congr 1
  rw [List.filter_eq_self.mpr, List.length_replicate]
  intro r hr
  rw [(List.mem_replicate.mp hr).2]
  simp

/-! ## Rounding: lemmas -/

theorem roundHalfEven_intCast (z : Int) : roundHalfEven (z : ℚ) = z := by
  unfold roundHalfEven
  rw [Int.floor_intCast, sub_self, if_pos (by norm_num)]

theorem roundHalfEven_near (q : ℚ) (z : Int) (h1 : (z : ℚ) - 1 / 2 < q)
    (h2 : q < (z : ℚ) + 1 / 2) : roundHalfEven q = z := by
  unfold roundHalfEven
  by_cases hq : (z : ℚ) ≤ q
  · have hf : ⌊q⌋ = z := Int.floor_eq_iff.mpr ⟨hq, by linarith⟩
    rw [hf, if_pos (by linarith)]
  · have hf : ⌊q⌋ = z - 1 := Int.floor_eq_iff.mpr ⟨by push_cast; linarith, by
      push_cast; linarith⟩
    rw [hf]
    push_cast
    rw [if_neg (by linarith), if_pos (by linarith)]
    ring

theorem log2_eq (q : ℚ) (e : Int) (h1 : (2 : ℚ) ^ e ≤ q) (h2 : q < (2 : ℚ) ^ (e + 1)) :
    Int.log 2 q = e := by
  have hq : 0 < q := lt_of_lt_of_le (zpow_pos (by norm_num) e) h1
  have a : e ≤ Int.log 2 q :=
    (Int.zpow_le_iff_le_log (by norm_num) hq).mp (by simpa using h1)
  have b : Int.log 2 q < e + 1 :=
    (Int.lt_zpow_iff_log_lt (by norm_num) hq).mp (by simpa using h2)
  omega

theorem ulp_eq (F : FloatFormat) (q : ℚ) (e : Int) (h1 : (2 : ℚ) ^ e ≤ |q|)
    (h2 : |q| < (2 : ℚ) ^ (e + 1)) (he : F.emin ≤ e) :
    F.ulp q = (2 : ℚ) ^ (e - ((F.prec : Int) - 1)) := by
  unfold FloatFormat.ulp
  rw [log2_eq |q| e h1 h2, max_eq_left he]

/-- Rounding of `q` with leading exponent `e` (in the normal range) when `z` is the nearest
integer of `q / ulp` and no tie occurs. -/
theorem round_eq_of_near (F : FloatFormat) (q : ℚ) (e z : Int) (h1 : (2 : ℚ) ^ e ≤ |q|)
    (h2 : |q| < (2 : ℚ) ^ (e + 1)) (he : F.emin ≤ e)
    (hz1 : (z : ℚ) - 1 / 2 < q / (2 : ℚ) ^ (e - ((F.prec : Int) - 1)))
    (hz2 : q / (2 : ℚ) ^ (e - ((F.prec : Int) - 1)) < (z : ℚ) + 1 / 2)
    (hfin : |(z : ℚ) * (2 : ℚ) ^ (e - ((F.prec : Int) - 1))| < (2 : ℚ) ^ (F.emax + 1)) :
    F.round q = FloatVal.finite ((z : ℚ) * (2 : ℚ) ^ (e - ((F.prec : Int) - 1))) := by
  unfold FloatFormat.round
  rw [ulp_eq F q e h1 h2 he, roundHalfEven_near _ z hz1 hz2, if_neg (not_le.mpr hfin)]

/-- A number of the format is left unchanged by rounding to the format. -/
theorem round_of_representable (F : FloatFormat) (q : ℚ) (h : F.Representable q) :
    F.round q = FloatVal.finite q := by
  obtain ⟨m, e, hm, he1, he2, hq⟩ := h
  have h2pos : ∀ k : Int, (0 : ℚ) < (2 : ℚ) ^ k := fun k => zpow_pos (by norm_num) k
  have hmq : |(m : ℚ)| < (2 : ℚ) ^ (F.prec : Int) := by
    rw [zpow_natCast]
    exact_mod_cast hm
  have hlt : |q| < (2 : ℚ) ^ ((F.prec : Int) + e) := by
    calc |q| = |(m : ℚ)| * (2 : ℚ) ^ e := by
          rw [hq, abs_mul, abs_of_pos (h2pos e)]
      _ < (2 : ℚ) ^ (F.prec : Int) * (2 : ℚ) ^ e :=
          mul_lt_mul_of_pos_right hmq (h2pos e)
      _ = (2 : ℚ) ^ ((F.prec : Int) + e) := by rw [zpow_add₀ (by norm_num)]
  have hfin : |q| < (2 : ℚ) ^ (F.emax + 1) :=
    lt_of_lt_of_le hlt (zpow_le_zpow_right₀ (by norm_num) (by omega))
  have hu : F.ulp q ≠ 0 := by
    unfold FloatFormat.ulp
    exact (h2pos _).ne'
  have hr : (roundHalfEven (q / F.ulp q) : ℚ) * F.ulp q = q := by
    by_cases h0 : q = 0
    · have hz : q / F.ulp q = ((0 : Int) : ℚ) := by rw [h0]; simp
      rw [hz, roundHalfEven_intCast, h0]
      simp
    · have hpos : 0 < |q| := abs_pos.mpr h0
      have hlog : Int.log 2 |q| < (F.prec : Int) + e :=
        (Int.lt_zpow_iff_log_lt (by norm_num) hpos).mp (by simpa using hlt)
      obtain ⟨E, hEdef⟩ : ∃ E : Int,
          E = max (Int.log 2 |q|) F.emin - ((F.prec : Int) - 1) := ⟨_, rfl⟩
      have hE : E ≤ e := by
        rcases max_cases (Int.log 2 |q|) F.emin with ⟨hmx, _⟩ | ⟨hmx, _⟩
        · rw [hEdef, hmx]
          omega
        · rw [hEdef, hmx]
          omega
      have hulp : F.ulp q = (2 : ℚ) ^ E := by
        unfold FloatFormat.ulp
        rw [hEdef]
      have hsplit : (2 : ℚ) ^ e = (2 : ℚ) ^ (e - E) * (2 : ℚ) ^ E := by
        rw [← zpow_add₀ (by norm_num)]
        congr 1
        omega
      have hdiv : q / F.ulp q = ((m * 2 ^ (e - E).toNat : Int) : ℚ) := by
        push_cast
        rw [← zpow_natCast, Int.toNat_of_nonneg (by omega), hulp, hq, hsplit, ← mul_assoc,
          mul_div_assoc, div_self (h2pos E).ne', mul_one]
      rw [hdiv, roundHalfEven_intCast, ← hdiv, div_mul_cancel₀ _ hu]
  unfold FloatFormat.round
  rw [hr, if_neg (not_le.mpr hfin)]

theorem representable_binary64_of_binary32 (q : ℚ) (h : binary32.Representable q) :
    binary64.Representable q := by
  obtain ⟨m, e, hm, he1, he2, hq⟩ := h
  refine ⟨m, e, ?_, ?_, ?_, hq⟩
  · exact lt_of_lt_of_le hm (by norm_num [binary32, binary64])
  · simp only [binary32, binary64] at he1 ⊢
    omega
  · simp only [binary32, binary64] at he2 ⊢
    omega

theorem representable_binary64_of_int (n : Int) (h : |n| < 2 ^ 53) :
    binary64.Representable (n : ℚ) :=
  ⟨n, 0, h, by simp [binary64], by simp [binary64], by simp⟩

/-- The conversion is exact whenever the exact quotient is a `float`. -/
theorem scaled_of_representable (raw : Int) (divisor : ℚ) (h : |raw| < 2 ^ 53)
    (hq : binary32.Representable ((raw : ℚ) / divisor)) :
    scaled raw divisor = FloatVal.finite ((raw : ℚ) / divisor) := by
  unfold scaled intToDouble
  rw [round_of_representable binary64 _ (representable_binary64_of_int raw h)]
  unfold divDouble
  simp only
  rw [round_of_representable binary64 _ (representable_binary64_of_binary32 _ hq)]
  unfold doubleToFloat
  simp only
  rw [round_of_representable binary32 _ hq]

theorem scaled_45000_microvolts :
    scaled 45000 1000000 = FloatVal.finite (3019899 / 67108864) := by
  have h1 : intToDouble 45000 = FloatVal.finite 45000 := by
    unfold intToDouble
    rw [round_of_representable binary64 _ (representable_binary64_of_int 45000 (by norm_num))]
    norm_num
  have h2 : binary64.round ((45000 : ℚ) / 1000000) =
      FloatVal.finite (3242591731706757 / 72057594037927936) := by
    rw [round_eq_of_near binary64 _ (-5) 6485183463413514
      (by norm_num [abs_of_pos]) (by norm_num [abs_of_pos]) (by norm_num [binary64])
      (by norm_num [binary64]) (by norm_num [binary64])
      (by norm_num [binary64, abs_of_pos])]
    norm_num [binary64]
  have h3 : binary32.round ((3242591731706757 : ℚ) / 72057594037927936) =
      FloatVal.finite (3019899 / 67108864) := by
    rw [round_eq_of_near binary32 _ (-5) 12079596
      (by norm_num [abs_of_pos]) (by norm_num [abs_of_pos]) (by norm_num [binary32])
      (by norm_num [binary32]) (by norm_num [binary32])
      (by norm_num [binary32, abs_of_pos])]
    norm_num [binary32]
  unfold scaled
  rw [h1]
  unfold divDouble doubleToFloat
  simp only
  rw [h2]
  simp only
  rw [h3]

theorem readValue_eq {σ : Type} (d : INA_Class σ) (v : INA2xxValue) (ina : σ) :
    (readValue d v ina).1 = scaled (rawOf d v ina) (divisorOf v.val_type_) ∧
      (readValue d v ina).2.2 = getterOf v.val_type_ v.deviceNum_ := by
  unfold readValue rawOf getterOf divisorOf
  cases v.val_type_ <;> exact ⟨rfl, rfl⟩

theorem tick_output {σ : Type} (d : INA_Class σ) (w : World σ) (this : Nat) :
    ((tick d this w).samplers this).output = (readValue d (w.samplers this) w.ina2xx.ina_).1 ∧
      (tick d this w).sink =
        w.sink ++ [(this, (readValue d (w.samplers this) w.ina2xx.ina_).1)] ∧
      (tick d this w).calls =
        w.calls ++ [(readValue d (w.samplers this) w.ina2xx.ina_).2.2] := by
  unfold tick
  simp only [Function.update_same]
  exact ⟨trivial, trivial, trivial⟩

/-- C3, as stated, fails: a shunt reading of 45000 microvolts is stored as the `float`
nearest to 0.045, which is 3019899 / 2^26 and not 45000 / 1000000. -/
theorem tick_45000_microvolts_is_not_exact :
    ((tick (constDriver 1 45000) 0
        (exampleWorld 1 45000 INA2xxValType.shunt_volts)).samplers 0).output =
      FloatVal.finite (3019899 / 67108864) ∧
    ((tick (constDriver 1 45000) 0
        (exampleWorld 1 45000 INA2xxValType.shunt_volts)).samplers 0).output ≠
      FloatVal.finite (45000 / 1000000) := by
  have e : ((tick (constDriver 1 45000) 0
      (exampleWorld 1 45000 INA2xxValType.shunt_volts)).samplers 0).output =
      scaled 45000 1000000 := by
    rw [(tick_output _ _ _).1, (readValue_eq _ _ _).1]
    rfl
  rw [e, scaled_45000_microvolts]
  refine ⟨rfl, ?_⟩
  intro h
  injection h with h
  norm_num at h

/-- C3, amended: on every run of the callback the value stored in `output` and passed to
`notify()` is the raw reading of the getter matching the value type, for the sampler's
device number, divided by 1000 (`bus_volts`) or 1,000,000 (`shunt_volts`, `watts`, `amps`)
in `double` and narrowed to `float`. Whenever the raw reading is below `2^53` in absolute
value and the exact quotient is a `float` number, the stored and notified value is the
exact quotient. -/
theorem tick_stores_float_of_scaled_reading {σ : Type} (d : INA_Class σ) (w : World σ)
    (this : Nat) :
    ((tick d this w).samplers this).output =
      scaled (rawOf d (w.samplers this) w.ina2xx.ina_)
        (divisorOf (w.samplers this).val_type_) ∧
    (tick d this w).sink = w.sink ++ [(this, ((tick d this w).samplers this).output)] ∧
    (tick d this w).calls =
      w.calls ++ [getterOf (w.samplers this).val_type_ (w.samplers this).deviceNum_] ∧
    (|rawOf d (w.samplers this) w.ina2xx.ina_| < 2 ^ 53 →
      binary32.Representable ((rawOf d (w.samplers this) w.ina2xx.ina_ : ℚ) /
        divisorOf (w.samplers this).val_type_) →
      ((tick d this w).samplers this).output =
        FloatVal.finite ((rawOf d (w.samplers this) w.ina2xx.ina_ : ℚ) /
          divisorOf (w.samplers this).val_type_)) := by
  obtain ⟨h1, h2, h3⟩ := tick_output d w this
  obtain ⟨r1, r2⟩ := readValue_eq d (w.samplers this) w.ina2xx.ina_
  refine ⟨h1.trans r1, ?_, ?_, ?_⟩
  · rw [h2, h1]
  · rw [h3, r2]
  · intro hb hr
    rw [h1, r1]
    exact scaled_of_representable _ _ hb hr

/-- Witness of C3, amended: 12500 mV gives 12.5, 2,000,000 uW gives 2, 500,000 uA gives
0.5, each exactly. -/
theorem tick_stores_float_of_scaled_reading_witness :
    ((tick (constDriver 1 12500) 0
        (exampleWorld 1 12500 INA2xxValType.bus_volts)).samplers 0).output =
      FloatVal.finite (25 / 2) ∧
    ((tick (constDriver 1 2000000) 0
        (exampleWorld 1 2000000 INA2xxValType.watts)).samplers 0).output =
      FloatVal.finite 2 ∧
    ((tick (constDriver 1 500000) 0
        (exampleWorld 1 500000 INA2xxValType.amps)).samplers 0).output =
      FloatVal.finite (1 / 2) :=
  ⟨((tick_stores_float_of_scaled_reading (constDriver 1 12500)
      (exampleWorld 1 12500 INA2xxValType.bus_volts) 0).2.2.2 (by decide)
      ⟨25, -1, by norm_num [binary32], by norm_num [binary32], by norm_num [binary32],
        by norm_num [rawOf, divisorOf, exampleWorld, World.start, exampleSamplers,
          constDriver]⟩).trans
      (by norm_num [rawOf, divisorOf, exampleWorld, World.start, exampleSamplers,
        constDriver]),
    ((tick_stores_float_of_scaled_reading (constDriver 1 2000000)
      (exampleWorld 1 2000000 INA2xxValType.watts) 0).2.2.2 (by decide)
      ⟨2, 0, by norm_num [binary32], by norm_num [binary32], by norm_num [binary32],
        by norm_num [rawOf, divisorOf, exampleWorld, World.start, exampleSamplers,
          constDriver]⟩).trans
      (by norm_num [rawOf, divisorOf, exampleWorld, World.start, exampleSamplers,
        constDriver]),
    ((tick_stores_float_of_scaled_reading (constDriver 1 500000)
      (exampleWorld 1 500000 INA2xxValType.amps) 0).2.2.2 (by decide)
      ⟨1, -1, by norm_num [binary32], by norm_num [binary32], by norm_num [binary32],
        by norm_num [rawOf, divisorOf, exampleWorld, World.start, exampleSamplers,
          constDriver]⟩).trans
      (by norm_num [rawOf, divisorOf, exampleWorld, World.start, exampleSamplers,
        constDriver])⟩

/-! ## Logical slots: lemmas -/

theorem assignSlots_length :
    ∀ devs : List PhysicalDevice,
      (assignSlots devs).length = (devs.map (fun dev => dev.channels)).sum
  | [] => rfl
  | dev :: rest => by
    rw [assignSlots, List.length_append, assignSlots_length rest]
    simp

theorem runStart_cons_succ (dev : PhysicalDevice) (rest : List PhysicalDevice) (i : Nat) :
    runStart (dev :: rest) (i + 1) = dev.channels + runStart rest i := by
  simp [runStart]

theorem runStart_succ :
    ∀ (devs : List PhysicalDevice) (i : Nat) (dev : PhysicalDevice), devs[i]? = some dev →
      runStart devs (i + 1) = runStart devs i + dev.channels
  | [], i, dev, h => by simp at h
  | d0 :: rest, 0, dev, h => by
    simp only [List.getElem?_cons_zero, Option.some.injEq] at h
    simp [runStart, h]
  | d0 :: rest, i + 1, dev, h => by
    rw [List.getElem?_cons_succ] at h
    rw [runStart_cons_succ, runStart_cons_succ, runStart_succ rest i dev h]
    omega

theorem runStart_mono :
    ∀ (devs : List PhysicalDevice) (i j : Nat), i ≤ j → runStart devs i ≤ runStart devs j
  | [], i, j, _ => by simp [runStart]
  | d0 :: rest, 0, j, _ => by simp [runStart]
  | d0 :: rest, i + 1, 0, h => by omega
  | d0 :: rest, i + 1, j + 1, h => by
    rw [runStart_cons_succ, runStart_cons_succ]
    have := runStart_mono rest i j (by omega)
    omega

theorem runStart_length (devs : List PhysicalDevice) :
    runStart devs devs.length = (assignSlots devs).length := by
  rw [assignSlots_length, runStart, List.take_length]

theorem assignSlots_getElem :
    ∀ (devs : List PhysicalDevice) (i : Nat) (dev : PhysicalDevice) (k : Nat),
      devs[i]? = some dev → k < dev.channels →
      (assignSlots devs)[runStart devs i + k]? = some (dev, k)
  | [], i, dev, k, h, _ => by simp at h
  | d0 :: rest, 0, dev, k, h, hk => by
    simp only [List.getElem?_cons_zero, Option.some.injEq] at h
    subst h
    have e : runStart (d0 :: rest) 0 = 0 := by simp [runStart]
    rw [e, Nat.zero_add, assignSlots, List.getElem?_append_left (by simpa using hk),
      List.getElem?_map, List.getElem?_range hk]
    rfl
  | d0 :: rest, i + 1, dev, k, h, hk => by
    rw [List.getElem?_cons_succ] at h
    rw [runStart_cons_succ, assignSlots, List.getElem?_append_right (by simp; omega)]
    have e : d0.channels + runStart rest i + k -
        ((List.range d0.channels).map (fun ch => (d0, ch))).length = runStart rest i + k := by
      simp
      omega
    rw [e]
    exact assignSlots_getElem rest i dev k h hk

theorem assignSlots_cover :
    ∀ (devs : List PhysicalDevice) (s : Nat), s < (assignSlots devs).length →
      ∃ (i : Nat) (dev : PhysicalDevice) (k : Nat),
        devs[i]? = some dev ∧ k < dev.channels ∧ s = runStart devs i + k
  | [], s, h => by simp [assignSlots] at h
  | d0 :: rest, s, h => by
    by_cases hs : s < d0.channels
    · exact ⟨0, d0, s, by simp, hs, by simp [runStart]⟩
    · have h' : s - d0.channels < (assignSlots rest).length := by
        rw [assignSlots, List.length_append] at h
        simp at h
        omega
      obtain ⟨i, dev, k, h1, h2, h3⟩ := assignSlots_cover rest (s - d0.channels) h'
      refine ⟨i + 1, dev, k, by rw [List.getElem?_cons_succ]; exact h1, h2, ?_⟩
      rw [runStart_cons_succ]
      omega

theorem index_eq_of_ascending (devs : List PhysicalDevice)
    (hasc : devs.Pairwise (fun a b => a.address < b.address)) (i j : Nat)
    (dev : PhysicalDevice) (hi : devs[i]? = some dev) (hj : devs[j]? = some dev) : i = j := by
  obtain ⟨li, ei⟩ := List.getElem?_eq_some.mp hi
  obtain ⟨lj, ej⟩ := List.getElem?_eq_some.mp hj
  have key := List.pairwise_iff_getElem.mp hasc
  rcases Nat.lt_trichotomy i j with h | h | h
  · have := key i j li lj h
    rw [ei, ej] at this
    exact absurd this (lt_irrefl _)
  · exact h
  · have := key j i lj li h
    rw [ei, ej] at this
    exact absurd this (lt_irrefl _)

/-- C6: for devices discovered in ascending bus-address order, the assigned slots are
exactly the numbers below the sum of the channel counts; the runs start at 0, each run
starts where the run of the device before ends and the last one ends at the slot count;
the slots of the `i`-th device are exactly the slots of the `i`-th run, whose length is
the channel count of the device, with the channels in order. -/
theorem slots_partition_into_runs (devs : List PhysicalDevice)
    (hasc : devs.Pairwise (fun a b => a.address < b.address)) :
    (assignSlots devs).length = (devs.map (fun dev => dev.channels)).sum ∧
    runStart devs 0 = 0 ∧
    runStart devs devs.length = (assignSlots devs).length ∧
    (∀ (i : Nat) (dev : PhysicalDevice), devs[i]? = some dev →
      runStart devs (i + 1) = runStart devs i + dev.channels ∧
      (∀ k : Nat, k < dev.channels →
        (assignSlots devs)[runStart devs i + k]? = some (dev, k)) ∧
      (∀ s : Nat, (∃ k : Nat, (assignSlots devs)[s]? = some (dev, k)) ↔
        runStart devs i ≤ s ∧ s < runStart devs i + dev.channels)) := by
  refine ⟨assignSlots_length devs, by simp [runStart], runStart_length devs, ?_⟩
  intro i dev hi
  refine ⟨runStart_succ devs i dev hi, fun k hk => assignSlots_getElem devs i dev k hi hk, ?_⟩
  intro s
  constructor
  · rintro ⟨k, hk⟩
    obtain ⟨ls, _⟩ := List.getElem?_eq_some.mp hk
    obtain ⟨j, dev2, k2, h1, h2, h3⟩ := assignSlots_cover devs s ls
    have hs := assignSlots_getElem devs j dev2 k2 h1 h2
    rw [← h3, hk] at hs
    simp only [Option.some.injEq, Prod.mk.injEq] at hs
    obtain ⟨hd, hk2⟩ := hs
    subst hd
    have hij := index_eq_of_ascending devs hasc i j dev hi h1
    subst hij
    omega
  · rintro ⟨h1, h2⟩
    refine ⟨s - runStart devs i, ?_⟩
    have := assignSlots_getElem devs i dev (s - runStart devs i) hi (by omega)
    rw [← this]
    congr 1
    omega

/-- Witness of C6: one single-channel device at 0x40 and one three-channel device at 0x41
give 4 slots, the first device at slot 0 and the second at slots 1, 2 and 3. -/
theorem slots_partition_into_runs_witness :
    exampleBus.Pairwise (fun a b => a.address < b.address) ∧
    (assignSlots exampleBus).length = 4 ∧
    (∀ s : Nat, (∃ k : Nat, (assignSlots exampleBus)[s]? = some (⟨0x40, "INA219", 1⟩, k)) ↔
      0 ≤ s ∧ s < 1) ∧
    (∀ s : Nat, (∃ k : Nat, (assignSlots exampleBus)[s]? = some (⟨0x41, "INA3221", 3⟩, k)) ↔
      1 ≤ s ∧ s < 4) :=
  have hasc : exampleBus.Pairwise (fun a b => a.address < b.address) := by decide
  have t := slots_partition_into_runs exampleBus hasc
  ⟨hasc, t.1, (t.2.2.2 0 ⟨0x40, "INA219", 1⟩ rfl).2.2, (t.2.2.2 1 ⟨0x41, "INA3221", 3⟩ rfl).2.2⟩

/-! ## Discovery of zero devices -/

/-- C1: when `begin` reports zero devices the registry has `sensor_detected_ = false`, and
in every program state on such a registry any sequence of `enable()` calls (any samplers,
repeated or not, whatever their device number, value type and read delay) leaves the
scheduler's timers, the samplers, the notified values and the driver untouched; with no
timer registered, no number of scheduler rounds stores or notifies a reading. -/
theorem no_device_enable_registers_nothing {σ : Type} (d : INA_Class σ)
    (dbg dbg2 : DebugLevel → Bool) (nameFirst : Bool) (max_amps shunt_micro_ohms : Nat)
    (ina_class : Option σ)
    (h0 : INA2xx.devicesFound d max_amps shunt_micro_ohms ina_class = 0) :
    (INA2xx.new d dbg nameFirst max_amps shunt_micro_ohms ina_class).ina2xx.sensor_detected_ = false ∧
    ∀ w : World σ,
      w.ina2xx.sensor_detected_ =
        (INA2xx.new d dbg nameFirst max_amps shunt_micro_ohms ina_class).ina2xx.sensor_detected_ →
      ∀ ids : List Nat,
        (enableEach dbg2 ids w).app = w.app ∧
        (enableEach dbg2 ids w).samplers = w.samplers ∧
        (enableEach dbg2 ids w).sink = w.sink ∧
        (enableEach dbg2 ids w).calls = w.calls ∧
        (w.app = [] → ∀ n : Nat,
          (fireRounds d n (enableEach dbg2 ids w)).sink = w.sink ∧
          (fireRounds d n (enableEach dbg2 ids w)).samplers = w.samplers ∧
          (fireRounds d n (enableEach dbg2 ids w)).calls = w.calls) := by
  have hs : (INA2xx.new d dbg nameFirst max_amps shunt_micro_ohms ina_class).ina2xx.sensor_detected_
      = false := by
    rw [new_sensor_detected, h0]
    rfl
  refine ⟨hs, ?_⟩
  intro w hw ids
  obtain ⟨k1, k2, k3, k4, _⟩ := enableEach_undetected dbg2 ids w (hw.trans hs)
  refine ⟨k1, k2, k3, k4, ?_⟩
  intro hempty n
  rw [fireRounds_of_no_timer d _ (k1.trans hempty) n]
  exact ⟨k3, k2, k4⟩

/-- Witness of C1: a bus without devices; `enable()` on sampler 0 twice and on sampler 1. -/
theorem no_device_enable_registers_nothing_witness :
    INA2xx.devicesFound (constDriver 0 12500) 1 100000 none = 0 ∧
    (exampleWorld 0 12500 INA2xxValType.bus_volts).ina2xx.sensor_detected_ = false ∧
    (enableEach (fun _ => true) [0, 0, 1]
      (exampleWorld 0 12500 INA2xxValType.bus_volts)).app = [] ∧
    (fireRounds (constDriver 0 12500) 3 (enableEach (fun _ => true) [0, 0, 1]
      (exampleWorld 0 12500 INA2xxValType.bus_volts))).sink = [] :=
  have t := no_device_enable_registers_nothing (constDriver 0 12500) (fun _ => true)
    (fun _ => true) true 1 100000 none rfl
  ⟨rfl, t.1, (t.2 (exampleWorld 0 12500 INA2xxValType.bus_volts) rfl [0, 0, 1]).1,
    ((t.2 (exampleWorld 0 12500 INA2xxValType.bus_volts) rfl [0, 0, 1]).2.2.2.2 rfl 3).1⟩

/-! ## Discovery of at least one device -/

/-- C2: `sensor_detected_` is false exactly when `begin` reported zero devices; when it
reported `n ≥ 1`, the flag is true and `enable()` on a sampler adds exactly one repeating
timer, whose period is the sampler's `read_delay_` and whose callback is the sampler's. -/
theorem detected_iff_device_found_and_enable_registers_one {σ : Type} (d : INA_Class σ)
    (dbg dbg2 : DebugLevel → Bool) (nameFirst : Bool) (max_amps shunt_micro_ohms : Nat)
    (ina_class : Option σ) :
    ((INA2xx.new d dbg nameFirst max_amps shunt_micro_ohms ina_class).ina2xx.sensor_detected_ = false ↔
      INA2xx.devicesFound d max_amps shunt_micro_ohms ina_class = 0) ∧
    (1 ≤ INA2xx.devicesFound d max_amps shunt_micro_ohms ina_class →
      (INA2xx.new d dbg nameFirst max_amps shunt_micro_ohms ina_class).ina2xx.sensor_detected_ = true ∧
      ∀ w : World σ,
        w.ina2xx.sensor_detected_ =
          (INA2xx.new d dbg nameFirst max_amps shunt_micro_ohms ina_class).ina2xx.sensor_detected_ →
        ∀ this : Nat,
          (enable dbg2 this w).app = w.app ++ [⟨(w.samplers this).read_delay_, this⟩] ∧
          (enable dbg2 this w).app.length = w.app.length + 1) := by
  rw [new_sensor_detected]
  constructor
  · by_cases h : INA2xx.devicesFound d max_amps shunt_micro_ohms ina_class = 0 <;> simp [h]
  · intro h1
    have hne : INA2xx.devicesFound d max_amps shunt_micro_ohms ina_class ≠ 0 := by omega
    have ht : (!decide (INA2xx.devicesFound d max_amps shunt_micro_ohms ina_class = 0))
        = true := by simp [hne]
    refine ⟨ht, ?_⟩
    intro w hw this
    rw [enable_detected dbg2 this w (hw.trans ht)]
    simp

/-- Witness of C2: one device on the bus, sampler 0 of the example (read delay 1000). -/
theorem detected_iff_device_found_and_enable_registers_one_witness :
    1 ≤ INA2xx.devicesFound (constDriver 1 12500) 1 100000 none ∧
    (exampleWorld 1 12500 INA2xxValType.bus_volts).ina2xx.sensor_detected_ = true ∧
    (enable (fun _ => true) 0 (exampleWorld 1 12500 INA2xxValType.bus_volts)).app =
      [⟨1000, 0⟩] :=
  have t := (detected_iff_device_found_and_enable_registers_one (constDriver 1 12500)
    (fun _ => true) (fun _ => true) true 1 100000 none).2 (by decide)
  ⟨by decide, t.1, (t.2 (exampleWorld 1 12500 INA2xxValType.bus_volts) rfl 0).1⟩

/-! ## The averaging window -/

/-- C9: the constructor calls `begin(max_amps, shunt_micro_ohms)` first and once, with its
own two arguments. When `begin` reports at least one device the last call is
`setAveraging(60)` without device number (all devices), and the calls in between only ask
for device addresses and names, so `setAveraging` is called exactly once; the driver
object is left in the state `setAveraging(60)` produces from the state after `begin` and
those queries. When `begin` reports zero devices `begin` is the only call made and the
driver object is left in the state after `begin`. In both cases the driver object is in
the state the recorded calls produce, in order, from the driver object the constructor
started with. This holds for every set of active debug levels and for both orders of
evaluation of the arguments of the `debugI` line. -/
theorem constructor_sets_averaging_60_once {σ : Type} (d : INA_Class σ)
    (dbg : DebugLevel → Bool) (nameFirst : Bool) (max_amps shunt_micro_ohms : Nat)
    (ina_class : Option σ) :
    (INA2xx.devicesFound d max_amps shunt_micro_ohms ina_class = 0 →
      (INA2xx.new d dbg nameFirst max_amps shunt_micro_ohms ina_class).calls =
        [DriverCall.begin max_amps shunt_micro_ohms] ∧
      (INA2xx.new d dbg nameFirst max_amps shunt_micro_ohms ina_class).ina2xx.ina_ =
        (d.begin max_amps shunt_micro_ohms (ina_class.getD d.init)).2) ∧
    (1 ≤ INA2xx.devicesFound d max_amps shunt_micro_ohms ina_class →
      (∃ mid : List DriverCall,
        (INA2xx.new d dbg nameFirst max_amps shunt_micro_ohms ina_class).calls =
          DriverCall.begin max_amps shunt_micro_ohms ::
            (mid ++ [DriverCall.setAveraging 60 none]) ∧
        (∀ c ∈ mid, c.isQuery = true) ∧
        (INA2xx.new d dbg nameFirst max_amps shunt_micro_ohms ina_class).ina2xx.ina_ =
          d.setAveraging 60 none (mid.foldl (DriverCall.run d)
            (d.begin max_amps shunt_micro_ohms (ina_class.getD d.init)).2)) ∧
      ((INA2xx.new d dbg nameFirst max_amps shunt_micro_ohms ina_class).calls.filter
        (fun c => !c.isQuery)) =
        [DriverCall.begin max_amps shunt_micro_ohms, DriverCall.setAveraging 60 none]) ∧
    (INA2xx.new d dbg nameFirst max_amps shunt_micro_ohms ina_class).ina2xx.ina_ =
      (INA2xx.new d dbg nameFirst max_amps shunt_micro_ohms ina_class).calls.foldl
        (DriverCall.run d) (ina_class.getD d.init) := by
  obtain ⟨hz, hp⟩ := new_calls d dbg nameFirst max_amps shunt_micro_ohms ina_class
  refine ⟨hz, ?_, ?_⟩
  · intro h1
    obtain ⟨mid, e, hq, hs⟩ := hp (by omega)
    refine ⟨⟨mid, e, hq, hs⟩, ?_⟩
    rw [e, List.filter_cons, List.filter_append]
    have hm : mid.filter (fun c => !c.isQuery) = [] := by
      rw [List.filter_eq_nil_iff]
      intro c hc
      simp [hq c hc]
    rw [hm]
    rfl
  · by_cases h0 : INA2xx.devicesFound d max_amps shunt_micro_ohms ina_class = 0
    · obtain ⟨e, hs⟩ := hz h0
      rw [e, hs]
      rfl
    · obtain ⟨mid, e, _, hs⟩ := hp h0
      rw [e, hs, List.foldl_cons, List.foldl_append]
      rfl

/-- Witness of C9: two devices on the bus, debug output on, on a driver that records the
calls it receives: the driver has received `begin(1, 100000)`, the queries and
`setAveraging(60)`, in either order of evaluation of the queries; without devices it has
received `begin(1, 100000)` only. -/
theorem constructor_sets_averaging_60_once_witness :
    1 ≤ INA2xx.devicesFound (recordingDriver 2) 1 100000 none ∧
    (INA2xx.new (recordingDriver 2) (fun _ => true) true 1 100000 none).ina2xx.ina_ =
      [DriverCall.begin 1 100000, DriverCall.getDeviceName 0, DriverCall.getDeviceAddress 0,
        DriverCall.getDeviceName 1, DriverCall.getDeviceAddress 1,
        DriverCall.setAveraging 60 none] ∧
    (INA2xx.new (recordingDriver 2) (fun _ => true) false 1 100000 none).ina2xx.ina_ =
      [DriverCall.begin 1 100000, DriverCall.getDeviceAddress 0, DriverCall.getDeviceName 0,
        DriverCall.getDeviceAddress 1, DriverCall.getDeviceName 1,
        DriverCall.setAveraging 60 none] ∧
    ((INA2xx.new (recordingDriver 2) (fun _ => true) true 1 100000 none).calls.filter
        (fun c => !c.isQuery)) =
      [DriverCall.begin 1 100000, DriverCall.setAveraging 60 none] ∧
    (INA2xx.new (recordingDriver 2) (fun _ => false) true 1 100000 none).ina2xx.ina_ =
      [DriverCall.begin 1 100000, DriverCall.setAveraging 60 none] ∧
    (INA2xx.new (recordingDriver 0) (fun _ => true) true 1 100000 none).ina2xx.ina_ =
      [DriverCall.begin 1 100000] :=
  have t := constructor_sets_averaging_60_once (recordingDriver 2) (fun _ => true) true
    1 100000 none
  have t0 := constructor_sets_averaging_60_once (recordingDriver 0) (fun _ => true) true
    1 100000 none
  ⟨by decide, t.2.2.trans (by decide), by decide, (t.2.1 (by decide)).2, by decide,
    (t0.1 rfl).2.trans (by decide)⟩

/-! ## Configuration: rejection and round trip -/

/-- C4: a configuration object that does not contain the key `read_delay` (the empty
object included) makes `set_configuration` return false and leaves the sampler and the
whole program state unchanged, so `get_configuration` reports the same interval. -/
theorem set_configuration_without_key_changes_nothing {σ : Type} (other : JsonVariant → Nat)
    (w : World σ) (this : Nat) (config root : JsonObject)
    (h : config.containsKey "read_delay" = false) :
    INA2xxValue.set_configuration other (w.samplers this) config = (false, w.samplers this) ∧
    World.set_configuration other this config w = (false, w) ∧
    World.reportedInterval (World.set_configuration other this config w).2 this root =
      World.reportedInterval w this root := by
  have e := set_configuration_rejected other (w.samplers this) config h
  have ew : World.set_configuration other this config w = (false, w) := by
    unfold World.set_configuration
    rw [e]
    simp
  exact ⟨e, ew, by rw [ew]⟩

/-- Witness of C4: the empty object on sampler 0 of the example. -/
theorem set_configuration_without_key_changes_nothing_witness :
    JsonObject.containsKey ⟨[]⟩ "read_delay" = false ∧
    World.set_configuration (fun _ => 0) 0 ⟨[]⟩
        (exampleWorld 1 12500 INA2xxValType.bus_volts) =
      (false, exampleWorld 1 12500 INA2xxValType.bus_volts) :=
  ⟨rfl, (set_configuration_without_key_changes_nothing (fun _ => 0)
    (exampleWorld 1 12500 INA2xxValType.bus_volts) 0 ⟨[]⟩ ⟨[]⟩ rfl).2.1⟩

/-- C5: when the configuration object holds under `read_delay` an integer `n` within the
range of `uint` (`0 ≤ n < 2^32`), `set_configuration` returns true and `get_configuration`
then reports `read_delay = n`. -/
theorem set_configuration_then_get_configuration {σ : Type} (other : JsonVariant → Nat)
    (w : World σ) (this : Nat) (config root : JsonObject) (n : Nat) (hn : n < 2 ^ 32)
    (hv : config.get "read_delay" = JsonVariant.integer n) :
    (World.set_configuration other this config w).1 = true ∧
    ((World.set_configuration other this config w).2.samplers this).read_delay_ = n ∧
    World.reportedInterval (World.set_configuration other this config w).2 this root =
      JsonVariant.integer n := by
  have hk : config.containsKey "read_delay" = true :=
    JsonObject.containsKey_of_get_ne_null config "read_delay" (by rw [hv]; simp)
  have e := set_configuration_accepted other (w.samplers this) config hk
  have hconv : (config.get "read_delay").asUInt other = n := by
    rw [hv]
    unfold JsonVariant.asUInt
    have hr : (0 : Int) ≤ (n : Int) ∧ (n : Int) < 2 ^ 32 := ⟨by omega, by exact_mod_cast hn⟩
    simp only [if_pos hr, Int.toNat_ofNat]
  unfold World.reportedInterval World.set_configuration
  rw [e, hconv]
  simp only [Function.update_same]
  refine ⟨trivial, trivial, ?_⟩
  unfold INA2xxValue.get_configuration
  rw [JsonObject.get_set]

/-- Witness of C5: `read_delay` 2000 set on sampler 0 of the example (read delay 1000). -/
theorem set_configuration_then_get_configuration_witness :
    JsonObject.get ⟨[("read_delay", JsonVariant.integer 2000)]⟩ "read_delay" =
      JsonVariant.integer (2000 : Nat) ∧
    (World.set_configuration (fun _ => 0) 0 ⟨[("read_delay", JsonVariant.integer 2000)]⟩
      (exampleWorld 1 12500 INA2xxValType.bus_volts)).1 = true ∧
    World.reportedInterval
      (World.set_configuration (fun _ => 0) 0 ⟨[("read_delay", JsonVariant.integer 2000)]⟩
        (exampleWorld 1 12500 INA2xxValType.bus_volts)).2 0 ⟨[]⟩ =
      JsonVariant.integer (2000 : Nat) :=
  have t := set_configuration_then_get_configuration (fun _ => 0)
    (exampleWorld 1 12500 INA2xxValType.bus_volts) 0
    ⟨[("read_delay", JsonVariant.integer 2000)]⟩ ⟨[]⟩ 2000 (by norm_num) rfl
  ⟨rfl, t.1, t.2.2⟩

/-- C10, as stated, fails: an object holding `read_delay` together with another key is
accepted, and the interval is updated. -/
theorem set_configuration_accepts_extra_key :
    INA2xxValue.set_configuration (fun _ => 0)
        ⟨0, INA2xxValType.bus_volts, 500, FloatVal.finite 0⟩
        ⟨[("read_delay", JsonVariant.integer 2000), ("units", JsonVariant.string "ms")]⟩ =
      (true, ⟨0, INA2xxValType.bus_volts, 2000, FloatVal.finite 0⟩) := by
  rfl

/-- C10, amended: `set_configuration` returns true if and only if the object contains the
key `read_delay`, whatever other keys it holds. An accepted object updates the interval to
the `uint` value of its `read_delay` member, which is `n` for an integer `n` in the range
of `uint`, and changes nothing else of the sampler; a rejected object leaves the sampler
unchanged. -/
theorem set_configuration_true_iff_key_present (other : JsonVariant → Nat)
    (v : INA2xxValue) (config : JsonObject) :
    ((INA2xxValue.set_configuration other v config).1 = true ↔
      config.containsKey "read_delay" = true) ∧
    ((INA2xxValue.set_configuration other v config).1 = false →
      (INA2xxValue.set_configuration other v config).2 = v) ∧
    ((INA2xxValue.set_configuration other v config).1 = true →
      (INA2xxValue.set_configuration other v config).2 =
        { v with read_delay_ := (config.get "read_delay").asUInt other }) ∧
    (∀ n : Nat, n < 2 ^ 32 → config.get "read_delay" = JsonVariant.integer n →
      INA2xxValue.set_configuration other v config = (true, { v with read_delay_ := n })) := by
  have hacc : config.containsKey "read_delay" = true →
      INA2xxValue.set_configuration other v config =
        (true, { v with read_delay_ := (config.get "read_delay").asUInt other }) := by
    intro hk
    unfold INA2xxValue.set_configuration
    simp [hk]
  have hrej : config.containsKey "read_delay" = false →
      INA2xxValue.set_configuration other v config = (false, v) := by
    intro hk
    unfold INA2xxValue.set_configuration
    simp [hk]
  refine ⟨?_, ?_, ?_, ?_⟩
  · cases hk : config.containsKey "read_delay" with
    | true => rw [hacc hk]
    | false => rw [hrej hk]
  · intro h
    cases hk : config.containsKey "read_delay" with
    | true => rw [hacc hk] at h; simp at h
    | false => rw [hrej hk]
  · intro h
    cases hk : config.containsKey "read_delay" with
    | true => rw [hacc hk]
    | false => rw [hrej hk] at h; simp at h
  · intro n hn hv
    have hk : config.containsKey "read_delay" = true :=
      JsonObject.containsKey_of_get_ne_null config "read_delay" (by rw [hv]; simp)
    rw [hacc hk, hv]
    unfold JsonVariant.asUInt
    have hr : (0 : Int) ≤ (n : Int) ∧ (n : Int) < 2 ^ 32 := ⟨by omega, by exact_mod_cast hn⟩
    simp only [if_pos hr, Int.toNat_ofNat]

/-- Witness of C10, amended: an object holding `read_delay` 2000 together with the key
`units` is accepted and sets the interval of a sampler with read delay 500 to 2000; the
empty object is rejected and changes nothing. -/
theorem set_configuration_true_iff_key_present_witness :
    JsonObject.get
        ⟨[("read_delay", JsonVariant.integer 2000), ("units", JsonVariant.string "ms")]⟩
        "read_delay" = JsonVariant.integer (2000 : Nat) ∧
    INA2xxValue.set_configuration (fun _ => 0)
        ⟨0, INA2xxValType.bus_volts, 500, FloatVal.finite 0⟩
        ⟨[("read_delay", JsonVariant.integer 2000), ("units", JsonVariant.string "ms")]⟩ =
      (true, { (⟨0, INA2xxValType.bus_volts, 500, FloatVal.finite 0⟩ : INA2xxValue) with
        read_delay_ := 2000 }) ∧
    (INA2xxValue.set_configuration (fun _ => 0)
      ⟨0, INA2xxValType.bus_volts, 500, FloatVal.finite 0⟩ ⟨[]⟩).1 = false ∧
    (INA2xxValue.set_configuration (fun _ => 0)
      ⟨0, INA2xxValType.bus_volts, 500, FloatVal.finite 0⟩ ⟨[]⟩).2 =
      ⟨0, INA2xxValType.bus_volts, 500, FloatVal.finite 0⟩ :=
  ⟨rfl,
    (set_configuration_true_iff_key_present (fun _ => 0)
      ⟨0, INA2xxValType.bus_volts, 500, FloatVal.finite 0⟩
      ⟨[("read_delay", JsonVariant.integer 2000),
        ("units", JsonVariant.string "ms")]⟩).2.2.2 2000 (by norm_num) rfl,
    rfl,
    (set_configuration_true_iff_key_present (fun _ => 0)
      ⟨0, INA2xxValType.bus_volts, 500, FloatVal.finite 0⟩ ⟨[]⟩).2.1 rfl⟩

/-! ## Configuration of an enabled sampler -/

/-- C8: on a sampler already enabled on a registry with a detected device, an accepted
`set_configuration` changes the interval `get_configuration` reports, and leaves the
scheduler as `enable()` left it: the timer added by `enable()` keeps the period
`read_delay_` had at that call, and no timer is added or removed. -/
theorem set_configuration_keeps_registered_timer {σ : Type} (other : JsonVariant → Nat)
    (dbg : DebugLevel → Bool) (w : World σ) (this : Nat) (config root : JsonObject)
    (hd : w.ina2xx.sensor_detected_ = true)
    (hk : config.containsKey "read_delay" = true) :
    (World.set_configuration other this config (enable dbg this w)).1 = true ∧
    (World.set_configuration other this config (enable dbg this w)).2.app =
      (enable dbg this w).app ∧
    (World.set_configuration other this config (enable dbg this w)).2.app =
      w.app ++ [⟨(w.samplers this).read_delay_, this⟩] ∧
    World.reportedInterval (World.set_configuration other this config (enable dbg this w)).2
        this root =
      JsonVariant.integer ((config.get "read_delay").asUInt other) := by
  rw [enable_detected dbg this w hd]
  unfold World.reportedInterval World.set_configuration
  simp only
  rw [set_configuration_accepted other (w.samplers this) config hk]
  simp only [Function.update_same]
  refine ⟨trivial, trivial, trivial, ?_⟩
  unfold INA2xxValue.get_configuration
  rw [JsonObject.get_set]

/-- Witness of C8: sampler 0 enabled with read delay 1000, then configured to 2000. -/
theorem set_configuration_keeps_registered_timer_witness :
    (exampleWorld 1 12500 INA2xxValType.bus_volts).ina2xx.sensor_detected_ = true ∧
    JsonObject.containsKey ⟨[("read_delay", JsonVariant.integer 2000)]⟩ "read_delay" = true ∧
    (World.set_configuration (fun _ => 0) 0 ⟨[("read_delay", JsonVariant.integer 2000)]⟩
      (enable (fun _ => true) 0 (exampleWorld 1 12500 INA2xxValType.bus_volts))).2.app =
      [⟨1000, 0⟩] ∧
    World.reportedInterval
      (World.set_configuration (fun _ => 0) 0 ⟨[("read_delay", JsonVariant.integer 2000)]⟩
        (enable (fun _ => true) 0 (exampleWorld 1 12500 INA2xxValType.bus_volts))).2
      0 ⟨[]⟩ = JsonVariant.integer 2000 :=
  have t := set_configuration_keeps_registered_timer (fun _ => 0) (fun _ => true)
    (exampleWorld 1 12500 INA2xxValType.bus_volts) 0
    ⟨[("read_delay", JsonVariant.integer 2000)]⟩ ⟨[]⟩ (by decide) rfl
  ⟨by decide, rfl, t.2.2.1, t.2.2.2⟩

/-! ## Repeated `enable()` -/

/-- C7, as stated, fails: on a registry with a detected device, two `enable()` calls on
sampler 0 leave two timers for it, and one scheduler round then notifies twice. -/
theorem enable_twice_registers_two_timers :
    (exampleWorld 1 12500 INA2xxValType.bus_volts).ina2xx.sensor_detected_ = true ∧
    (enable (fun _ => true) 0 (enable (fun _ => true) 0
      (exampleWorld 1 12500 INA2xxValType.bus_volts))).app = [⟨1000, 0⟩, ⟨1000, 0⟩] ∧
    timersOf (enable (fun _ => true) 0 (enable (fun _ => true) 0
      (exampleWorld 1 12500 INA2xxValType.bus_volts))) 0 ≠ 1 ∧
    notificationsOf (fireAll (constDriver 1 12500) (enable (fun _ => true) 0
      (enable (fun _ => true) 0 (exampleWorld 1 12500 INA2xxValType.bus_volts)))) 0 = 2 := by
  refine ⟨by decide, by decide, by decide, ?_⟩
  rw [notificationsOf_fireAll]
  decide

/-- C7, amended: on a registry with a detected device every `enable()` call adds one
timer: after `k` calls on a sampler the scheduler holds `k` more timers for it than
before, and one scheduler round makes the sampler notify once per timer it has. So the
sampler has exactly one timer, and notifies once per round, only after a single call. -/
theorem enable_k_times_registers_k_timers {σ : Type} (d : INA_Class σ)
    (dbg : DebugLevel → Bool) (w : World σ) (this k : Nat)
    (hd : w.ina2xx.sensor_detected_ = true) :
    timersOf ((enable dbg this)^[k] w) this = timersOf w this + k ∧
    notificationsOf (fireAll d ((enable dbg this)^[k] w)) this =
      notificationsOf w this + (timersOf w this + k) := by
  have ht := timersOf_enable_iterate dbg this k w hd
  refine ⟨ht, ?_⟩
  rw [notificationsOf_fireAll, ht]
  unfold notificationsOf
  rw [(enable_iterate_detected dbg this k w hd).2.2.1]

/-- Witness of C7, amended: three `enable()` calls on sampler 0 of the example. -/
theorem enable_k_times_registers_k_timers_witness :
    (exampleWorld 1 12500 INA2xxValType.bus_volts).ina2xx.sensor_detected_ = true ∧
    timersOf ((enable (fun _ => true) 0)^[3]
      (exampleWorld 1 12500 INA2xxValType.bus_volts)) 0 =
      timersOf (exampleWorld 1 12500 INA2xxValType.bus_volts) 0 + 3 :=
  ⟨by decide, (enable_k_times_registers_k_timers (constDriver 1 12500) (fun _ => true)
    (exampleWorld 1 12500 INA2xxValType.bus_volts) 0 3 (by decide)).1⟩

end INA2xxSpec
